import Mathlib

/-!
Verification of the hot-vsx editor-extension core logic against its
natural-language specification.  The JavaScript source is shallowly embedded:
strings are `String` (sequences of `Char`, a faithful model for the BMP text
the extension handles), the file system and subprocess outcomes are explicit
environment values, and every fallible operation is a total Lean function.
-/

namespace HotVsx

/-! ## JavaScript string primitives (ASCII-core semantics) -/

/-- Characters treated as whitespace by JS `String.prototype.trim` (ASCII core). -/
def jsWsChar (c : Char) : Bool :=
  c == ' ' || c == '\t' || c == '\n' || c == '\r' || c == '\x0b' || c == '\x0c'

/-- Trim whitespace from both ends of a character list. -/
def trimList (l : List Char) : List Char :=
  ((l.dropWhile jsWsChar).reverse.dropWhile jsWsChar).reverse

/-- JS `s.trim()`. -/
def jsTrim (s : String) : String := String.mk (trimList s.toList)

/-- The empty string (named so literals appear only in definitions). -/
def emptyStr : String := ""

/-- JS string truthiness: non-empty. -/
def strNonEmpty (s : String) : Bool :=
  match s.toList with
  | [] => false
  | _ :: _ => true

/-- Decidable list-prefix test. -/
def isPrefixList : List Char → List Char → Bool
  | [], _ => true
  | _ :: _, [] => false
  | a :: as, b :: bs => a == b && isPrefixList as bs

/-- JS `s.startsWith(pat)`. -/
def strStartsWith (s pat : String) : Bool := isPrefixList pat.toList s.toList

/-- JS `s.endsWith(pat)`. -/
def strEndsWith (s pat : String) : Bool :=
  isPrefixList pat.toList.reverse s.toList.reverse

/-- JS `s.includes(pat)` (substring occurrence). -/
def containsSub (needle : List Char) : List Char → Bool
  | [] => isPrefixList needle []
  | c :: t => isPrefixList needle (c :: t) || containsSub needle t

/-- JS `s.includes(pat)` on strings. -/
def strContains (s pat : String) : Bool := containsSub pat.toList s.toList

/-- String equality via the underlying character lists. -/
def strEq (a b : String) : Bool := a.toList == b.toList

/-! ## Result renderer (`showInlineResult`, source lines 280-322)

`showInlineResult(editor, range, result, isError, stdout)` composes a display
string from `result` and the optional captured `stdout`, collapses embedded
newlines to a visible marker, truncates to 80 characters with an ellipsis,
and prefixes an arrow marker when no stdout was passed. -/

/-- The literal `'null'` compared against the result. -/
def nullLit : String := "null"

/-- The ` => ` separator inserted between stdout and result. -/
def sepArrow : String := " => "

/-- The `=> ` marker prefixed when no stdout is present. -/
def arrowHead : String := "=> "

/-- `displayResult.replace(/\n/g, ' ↵ ')` over a character list. -/
def collapseList : List Char → List Char
  | [] => []
  | c :: t =>
      if c = '\n' then ' ' :: '↵' :: ' ' :: collapseList t
      else c :: collapseList t

/-- Collapse embedded line breaks to the visible marker (source line 292). -/
def collapseNewlines (s : String) : String := String.mk (collapseList s.toList)

/-- The ellipsis marker appended on truncation. -/
def ellipsisChar : Char := '…'

/-- Truncate to 80 characters plus ellipsis if longer (source lines 293-295). -/
def truncateDisplay (s : String) : String :=
  if s.length > 80 then String.mk (s.toList.take 80 ++ [ellipsisChar]) else s

/-- JS truthiness of the optional `stdout` argument (`undefined` is `none`). -/
def jsTruthy : Option String → Bool
  | none => false
  | some s => strNonEmpty s

/-- Source lines 284-288: combine stdout and result for display.  The
` => result` part is appended only when `result` is truthy and not the
literal `'null'`; the stdout branch is taken only when `stdout` is truthy
AND trims to a non-empty string. -/
def composeDisplay (result : String) (so : Option String) : String :=
  match so with
  | none => result
  | some s =>
      if strNonEmpty s && strNonEmpty (jsTrim s) then
        jsTrim s ++
          (if strNonEmpty result && !(strEq result nullLit) then sepArrow ++ result
           else emptyStr)
      else result

/-- Source line 301: the decoration `contentText`.  When `stdout` is truthy
the (collapsed, truncated) display string is shown as-is; otherwise it is
prefixed with `=> `. -/
def displayedText (result : String) (so : Option String) : String :=
  let d := truncateDisplay (collapseNewlines (composeDisplay result so))
  if jsTruthy so then d else arrowHead ++ d

/-! ## Decoration clearing (`showInlineResult`, source lines 310-322)

After the decoration is set, two clear triggers are armed: a text-document
change listener (which clears and disposes itself, but does not cancel the
timer) and a 10-second timeout (which clears and disposes the listener).
`DecoSt` models the editor's decoration list plus which triggers are still
armed. -/

/-- State of one displayed inline annotation: the decorations currently set
for the decoration type, whether the edit listener is still armed, and
whether the timeout is still pending. -/
structure DecoSt where
  decos : List Nat
  listenerOn : Bool
  timerOn : Bool
deriving DecidableEq

/-- The edit-triggered clear (source lines 311-316): if the listener is still
armed, set the decorations to `[]` and dispose the listener.  The pending
timeout is NOT cancelled. -/
def editClear (st : DecoSt) : DecoSt :=
  if st.listenerOn then ⟨[], false, st.timerOn⟩ else st

/-- The timeout-triggered clear (source lines 319-322): if the timeout is
still pending, set the decorations to `[]` and dispose the listener; the
timeout itself fires at most once. -/
def timerClear (st : DecoSt) : DecoSt :=
  if st.timerOn then ⟨[], false, false⟩ else st

/-! ## Eval dispatcher (`evaluateHotCode`, source lines 222-270)

The dispatcher tries the language-server request when the client exists and
is running; if that request throws, or no running client exists, it falls
back to exactly one `execFile(commandPath, ['eval', code], {timeout: 30000})`
invocation.  The environment captures the nondeterministic inputs: client
state, the server reply (or the thrown error), and the subprocess outcome. -/

/-- The eval result record returned to callers (source JSDoc line 220). -/
structure EvalResult where
  success : Bool
  result : String
  error : Option String
  respNs : Option String
  respOut : Option String
deriving DecidableEq

/-- Outcome of the `execFile` CLI invocation: clean exit (code 0) with the
captured streams, or a failure (non-zero exit or spawn error) carrying the
error's `message` plus the captured streams. -/
inductive CliOutcome where
  | ok (stdout stderr : String)
  | fail (message : String) (stdout stderr : String)
deriving DecidableEq

/-- Environment of one evaluation request: whether `client` is non-null,
whether `isRunning` is set, what `client.sendRequest('hot/eval', …)` would
do (reply or throw), and what the CLI subprocess would do if spawned. -/
structure EvalEnv where
  clientPresent : Bool
  running : Bool
  lspReply : Except String EvalResult
  cli : CliOutcome

/-- The `execFile` invocation descriptor for the CLI fallback
(source lines 252-255): argument vector and options timeout. -/
structure ExecCall where
  args : List String
  timeoutMs : Nat
deriving DecidableEq

/-- The `eval` subcommand name. -/
def evalArg : String := "eval"

/-- The CLI fallback call built by `evaluateHotCode`: `['eval', code]` with a
30000 ms timeout. -/
def cliEvalCall (code : String) : ExecCall := ⟨[evalArg, code], 30000⟩

/-- The `execFile` callback of the fallback path (source lines 255-268):
on error, `{success: false, result: '', error: stderr || error.message}`;
otherwise `{success: true, result: stdout.trim()}`. -/
def runCli : CliOutcome → EvalResult
  | .ok stdout _ => ⟨true, jsTrim stdout, none, none, none⟩
  | .fail message _ stderr =>
      ⟨false, emptyStr, some (if strNonEmpty stderr then stderr else message), none, none⟩

/-- `evaluateHotCode` (source lines 222-270), instrumented with the list of
CLI subprocess invocations it performs.  The promise always resolves — the
LSP error is caught and the callback resolves in both branches — so the
model is a total function. -/
def evaluateHotCode (code : String) (env : EvalEnv) : EvalResult × List ExecCall :=
  if env.clientPresent && env.running then
    match env.lspReply with
    | .ok r => (r, [])
    | .error _ => (runCli env.cli, [cliEvalCall code])
  else (runCli env.cli, [cliEvalCall code])

/-- The language-server path fails exactly when no running client exists or
the request throws. -/
def serverPathFails (env : EvalEnv) : Bool :=
  !(env.clientPresent && env.running) ||
    (match env.lspReply with
     | .ok _ => false
     | .error _ => true)

/-! ## Format bridge (`formatHotDocument`, source lines 43-106)

The document text is written to a fresh temp file, `hot fmt <tmp>` is run
with a 10 s timeout, and the callback inspects the outcome.  `FmtEnv`
captures the formatter's behaviour: the `execFile` error (if any), the
captured stderr, and the temp file's state after the formatter ran
(`none` = missing/deleted, in which case `readFileSync` throws).  The model
returns the edit list the promise resolves with, paired with the final temp
file state (`none` = removed). -/

/-- The diagnostic marker whose presence in stderr marks a recoverable
formatter warning. -/
def charAuditMark : String := "CHAR-AUDIT"

/-- A whole-document replacement edit: character offsets of the replaced
range and the replacement text. -/
structure DocEdit where
  rangeStart : Nat
  rangeEnd : Nat
  newText : String
deriving DecidableEq

/-- The single edit replacing the full original document
(`document.positionAt(0)` to `document.positionAt(content.length)`). -/
def fullEdit (content t : String) : DocEdit := ⟨0, content.length, t⟩

/-- Formatter-run environment: `execFile` error (with its message), captured
stderr, and the temp file content after the formatter ran. -/
structure FmtEnv where
  err : Option String
  stderr : String
  tmpAfter : Option String
deriving DecidableEq

/-- `formatHotDocument`'s callback (source lines 55-104) as a function from
the original content and the formatter environment to the resolved edit
list and the final temp-file state (`none` = file removed / absent).
Walk of the source: on error with `CHAR-AUDIT` in stderr and an existing
temp file, read + unlink + diff (falling through to `resolve([])` when the
content is unchanged); on error otherwise, log and `resolve([])` WITHOUT
unlinking; on clean exit, read + unlink + diff, the `catch` handler
unlinking and resolving `[]` if the read-back throws. -/
def formatHotDocument (content : String) (env : FmtEnv) : List DocEdit × Option String :=
  match env.err with
  | some _ =>
      if strContains env.stderr charAuditMark then
        match env.tmpAfter with
        | some t =>
            if t ≠ content then ([fullEdit content t], none)
            else ([], none)
        | none => ([], none)
      else ([], env.tmpAfter)
  | none =>
      match env.tmpAfter with
      | some t =>
          if t ≠ content then ([fullEdit content t], none) else ([], none)
      | none => ([], none)

/-- Read-back-and-diff edits as the spec describes them: zero edits when the
formatter output equals the original, one full-range edit otherwise, zero
edits when the file cannot be read. -/
def readBackEdits (content : String) (tmpAfter : Option String) : List DocEdit :=
  match tmpAfter with
  | some t => if t ≠ content then [fullEdit content t] else []
  | none => []

/-- The claim's description of the returned edits: clean exit and the
`CHAR-AUDIT` recoverable warning both read back and diff; any other failure
returns zero edits. -/
def claimedFormatEdits (content : String) (env : FmtEnv) : List DocEdit :=
  match env.err with
  | none => readBackEdits content env.tmpAfter
  | some _ =>
      if strContains env.stderr charAuditMark then readBackEdits content env.tmpAfter
      else []

/-! ## Version comparison (`compareSemver`, source lines 932-943, and the
notification decision of `doVersionCheck`, source lines 968-989) -/

/-- JS `split(/[-.]/)` separator test. -/
def semverSep (c : Char) : Bool := c == '-' || c == '.'

/-- Split a character list at separator characters, JS `String.split`
semantics (empty fields preserved, `[""]` for the empty string). -/
def splitList (p : Char → Bool) : List Char → List (List Char)
  | [] => [[]]
  | c :: t =>
      if p c then [] :: splitList p t
      else
        match splitList p t with
        | [] => [[c]]
        | g :: gs => (c :: g) :: gs

/-- `s.replace(/^v/, '')`: drop a single leading `v`. -/
def stripLeadV (s : String) : String :=
  match s.toList with
  | 'v' :: r => String.mk r
  | _ => s

/-- Numeric value of a digit character. -/
def digitVal (c : Char) : Nat := c.toNat - 48

/-- JS `parseInt(x, 10) || 0`: skip leading whitespace, optional sign,
longest digit prefix; `NaN` (no digits) and `0` both map to `0`. -/
def jsParseIntOr0 (l : List Char) : Int :=
  let l1 := l.dropWhile jsWsChar
  let sl : Int × List Char :=
    match l1 with
    | '-' :: r => (-1, r)
    | '+' :: r => (1, r)
    | _ => (1, l1)
  let ds := sl.2.takeWhile Char.isDigit
  if ds = [] then 0
  else sl.1 * Int.ofNat (ds.foldl (fun a c => a * 10 + digitVal c) 0)

/-- The parsed component list of a version string (source line 933-934). -/
def semverComponents (s : String) : List Int :=
  (splitList semverSep (stripLeadV s).toList).map jsParseIntOr0

/-- Comparison tail when the first component list is exhausted: the missing
components are read as `0`. -/
def cmpExhausted : List Int → Int
  | [] => 0
  | b :: bs => if (0 : Int) < b then -1 else if b < 0 then 1 else cmpExhausted bs

/-- The component-wise comparison loop (source lines 935-942): missing
components are read as `0`. -/
def cmpComponents : List Int → List Int → Int
  | [], bs => cmpExhausted bs
  | a :: as, [] => if a < 0 then -1 else if (0 : Int) < a then 1 else cmpComponents as []
  | a :: as, b :: bs => if a < b then -1 else if b < a then 1 else cmpComponents as bs

/-- `compareSemver(a, b)` (source lines 932-943). -/
def compareSemver (a b : String) : Int :=
  cmpComponents (semverComponents a) (semverComponents b)

/-- The update-notification decision of `doVersionCheck` (source lines
973-986): notify only when the trimmed latest version and the installed
version are both non-empty and `compareSemver(installed, latest) < 0`. -/
def shouldNotify (installed : Option String) (latestRaw : String) : Bool :=
  let latest := jsTrim latestRaw
  match installed with
  | none => false
  | some iv => strNonEmpty latest && strNonEmpty iv && decide (compareSemver iv latest < 0)

/-! ## Form extractor (`getTopLevelForm`, source lines 397-468)

A document is a list of lines; the cursor is a line index.  The extractor
scans upward from the cursor for the nearest line whose first character is a
word character or `:` (skipping blank and `//`-comment lines), then scans
downward keeping brace/paren counters, stopping when a body was opened and
the braces are balanced with parens at most zero, or just before the next
top-level line.  The trimmed text of the spanned lines is returned unless it
looks like a namespace declaration. -/

/-- The `//` comment marker. -/
def commentMark : String := "//"

/-- Regex `/^[a-zA-Z_:]/u`: the line's first character is a word character
or a namespace-path marker. -/
def isWordStart (s : String) : Bool :=
  match s.toList with
  | [] => false
  | c :: _ =>
      (decide ('a' ≤ c) && decide (c ≤ 'z')) ||
      (decide ('A' ≤ c) && decide (c ≤ 'Z')) ||
      c == '_' || c == ':'

/-- The upward-scan skip test (source line 414): blank or comment line. -/
def isBlankOrComment (s : String) : Bool :=
  !(strNonEmpty (jsTrim s)) || strStartsWith (jsTrim s) commentMark

/-- The downward-scan new-top-level test (source line 449). -/
def isTopLevelLine (s : String) : Bool :=
  isWordStart s && strNonEmpty (jsTrim s) && !(strStartsWith (jsTrim s) commentMark)

/-- Upward scan (source lines 409-423), iterating `i` from the cursor line
down to `0` with fuel `i + 1`; if no line matches, `startLine` keeps its
initial value, the cursor line. -/
def findStartAux (lines : List String) (pos : Nat) : Nat → Nat
  | 0 => pos
  | Nat.succ k =>
      let text := lines.getD k emptyStr
      if isBlankOrComment text then findStartAux lines pos k
      else if isWordStart text then k
      else findStartAux lines pos k

/-- The start line found by the upward scan. -/
def findStart (lines : List String) (pos : Nat) : Nat :=
  findStartAux lines pos (pos + 1)

/-- Brace/paren scanner state (source lines 426-428). -/
structure ScanSt where
  brace : Int
  paren : Int
  found : Bool
deriving DecidableEq

/-- The initial scanner state. -/
def scanInit : ScanSt := ⟨0, 0, false⟩

/-- Per-character counter update (source lines 434-439). -/
def stepChar (st : ScanSt) (c : Char) : ScanSt :=
  let s1 := if c = '\x7b' then ⟨st.brace + 1, st.paren, true⟩ else st
  let s2 := if c = '\x7d' then ⟨s1.brace - 1, s1.paren, s1.found⟩ else s1
  let s3 := if c = '(' then ⟨s2.brace, s2.paren + 1, s2.found⟩ else s2
  if c = ')' then ⟨s3.brace, s3.paren - 1, s3.found⟩ else s3

/-- Counter update across one line, in character order. -/
def stepLine (st : ScanSt) (s : String) : ScanSt := s.toList.foldl stepChar st

/-- The stop test evaluated after consuming a line (source line 444):
a body was found, braces balanced, parens at most zero. -/
def stopAfter (st : ScanSt) : Bool :=
  st.found && (st.brace == 0) && decide (st.paren ≤ 0)

/-- Downward scan (source lines 430-453).  Arguments: `s` the start line,
the scanner state so far, the current line index, the last value assigned to
`endLine`, and the remaining lines.  The loop body sets `endLine := i`, then
breaks with `i` on the balance condition, or with `i - 1` just before a new
top-level line (only for `i > s`), else continues. -/
def scanEndAux (s : Nat) : ScanSt → Nat → Nat → List String → Nat
  | _, _, prev, [] => prev
  | st, i, _, l :: ls =>
      let st' := stepLine st l
      if stopAfter st' then i
      else if decide (s < i) && isTopLevelLine l then i - 1
      else scanEndAux s st' (i + 1) i ls

/-- The end line computed by the downward scan from start line `s`, with the
cursor line as the initial `endLine` value. -/
def scanEnd (lines : List String) (s pos : Nat) : Nat :=
  scanEndAux s scanInit s pos (lines.drop s)

/-- Scanner state after consuming lines `s, …, i - 1`. -/
def stBefore (lines : List String) (s i : Nat) : ScanSt :=
  ((lines.drop s).take (i - s)).foldl stepLine scanInit

/-- The balance stop condition at line `j` of the downward scan from `s`. -/
def stopA (lines : List String) (s j : Nat) : Bool :=
  stopAfter (stBefore lines s (j + 1))

/-- The new-top-level stop condition at line `j` of the downward scan. -/
def stopB (lines : List String) (s j : Nat) : Bool :=
  decide (s < j) && isTopLevelLine (lines.getD j emptyStr)

/-- The newline joining document lines in `document.getText(range)`. -/
def nlStr : String := "\n"

/-- Join lines with newlines. -/
def joinLines : List String → String
  | [] => emptyStr
  | [l] => l
  | l :: ls => l ++ nlStr ++ joinLines ls

/-- The ` ns` namespace-declaration suffix. -/
def nsSuffix : String := " ns"

/-- Regex `/^::[^\s]+ ns$/`: `::`, then at least one non-whitespace
character, then ` ns` at the end. -/
def nsRegexMatch (t : String) : Bool :=
  match t.toList with
  | ':' :: ':' :: rest =>
      let n := rest.length
      decide (3 < n) && (rest.drop (n - 3) == nsSuffix.toList) &&
        (rest.take (n - 3)).all (fun c => !(jsWsChar c))
  | _ => false

/-- A located top-level form: trimmed text plus the span's start and end
positions (line, column). -/
structure FormSpan where
  text : String
  startLine : Nat
  startCol : Nat
  endLine : Nat
  endCol : Nat
deriving DecidableEq

/-- `getTopLevelForm` (source lines 397-468) over a document given as a list
of lines and a cursor line.  Returns `none` for namespace declarations,
otherwise the trimmed text spanning the start and end lines. -/
def getTopLevelForm (lines : List String) (pos : Nat) : Option FormSpan :=
  let s := findStart lines pos
  let e := scanEnd lines s pos
  let text := jsTrim (joinLines ((lines.drop s).take (e + 1 - s)))
  if strEndsWith text nsSuffix || nsRegexMatch text then none
  else some ⟨text, s, 0, e, (lines.getD e emptyStr).length⟩

/-! ## The downward-scan end rule as claim C2 states it

Claim C2 describes the end line as "the first line at which brace-nesting
has returned to zero after having gone positive at least once, or the line
before the first subsequent line that begins a new top-level unit, whichever
comes first" — with no condition on parenthesis nesting.  `claimedEnd`
implements exactly that rule, to be compared with the source's `scanEnd`. -/

/-- The claim's balance stop test: a body was opened and brace-nesting is
back to zero (no parenthesis condition). -/
def stopAfterClaim (st : ScanSt) : Bool := st.found && (st.brace == 0)

/-- The downward scan with the claim's stop rule. -/
def claimedEndAux (s : Nat) : ScanSt → Nat → Nat → List String → Nat
  | _, _, prev, [] => prev
  | st, i, _, l :: ls =>
      let st' := stepLine st l
      if stopAfterClaim st' then i
      else if decide (s < i) && isTopLevelLine l then i - 1
      else claimedEndAux s st' (i + 1) i ls

/-- The end line under the claim's rule. -/
def claimedEnd (lines : List String) (s pos : Nat) : Nat :=
  claimedEndAux s scanInit s pos (lines.drop s)

/-! ## Concrete instances used by the witnesses and counterexamples -/

/-- First line of the spec's three-line scenario document. -/
def scenLine0 : String := "x fn (n: Int): Int \x7b"

/-- Second (body) line of the scenario document. -/
def scenLine1 : String := "  n"

/-- Third (closing) line of the scenario document. -/
def scenLine2 : String := "\x7d"

/-- The spec's scenario document. -/
def scenarioDoc : List String := [scenLine0, scenLine1, scenLine2]

/-- The text of the full three-line span. -/
def scenarioText : String := "x fn (n: Int): Int \x7b\n  n\n\x7d"

/-- A document whose first line closes a brace body inside a still-open
parenthesis: `a ({}` followed by `)`. -/
def demoLine0 : String := "a (\x7b\x7d"

/-- Second line of the paren-imbalance document. -/
def demoLine1 : String := ")"

/-- The paren-imbalance document distinguishing the claim's end rule from
the source's. -/
def demoDoc : List String := [demoLine0, demoLine1]

/-- A one-line document with an opened but never closed brace body. -/
def unbalLine0 : String := "f fn (x: Int): Int \x7b"

/-- The unbalanced (malformed) document. -/
def unbalDoc : List String := [unbalLine0]

/-- A result string of 81 `a` characters. -/
def longAStr : String := String.mk (List.replicate 81 'a')

/-- A short result string. -/
def sevenStr : String := "7"

/-- A short captured-stdout string. -/
def hiStr : String := "hi"

/-- A one-character result string. -/
def fiveStr : String := "5"

/-- A whitespace-only (but truthy) captured-stdout string. -/
def blankStr : String := " "

/-- The scenario eval input. -/
def onePlusOne : String := "1 + 1"

/-- A raw CLI stdout capture with a trailing newline. -/
def twoNl : String := "2\n"

/-- A thrown LSP error message. -/
def downMsg : String := "connection is not running"

/-- A spawn-failure message. -/
def spawnMsg : String := "spawn hot ENOENT"

/-- Environment: no client, CLI exits 0 with stdout `"2\n"`. -/
def envRawOut : EvalEnv := ⟨false, false, Except.error downMsg, CliOutcome.ok twoNl emptyStr⟩

/-- Environment: running client whose request throws, CLI spawn fails with
empty stderr. -/
def envFailCli : EvalEnv :=
  ⟨true, true, Except.error downMsg, CliOutcome.fail spawnMsg emptyStr emptyStr⟩

/-- An original document text for the format bridge. -/
def origDoc : String := "y  1"

/-- A formatter output differing from the original. -/
def fmtOut : String := "y 1"

/-- A formatter failure message. -/
def leakMsg : String := "Command failed: hot fmt (exit code 1)"

/-- A formatter stderr without the recoverable marker. -/
def leakStderr : String := "error: unexpected token"

/-- A formatter stderr containing the recoverable marker. -/
def auditStderr : String := "warning: CHAR-AUDIT issue detected"

/-- Formatter environment: failure without the marker, temp file still
present (the formatter did not rewrite it). -/
def envLeak : FmtEnv := ⟨some leakMsg, leakStderr, some origDoc⟩

/-- Formatter environment: clean exit, rewritten temp file. -/
def envClean : FmtEnv := ⟨none, emptyStr, some fmtOut⟩

/-- Formatter environment: non-zero exit with the recoverable marker,
rewritten temp file. -/
def envAudit : FmtEnv := ⟨some leakMsg, auditStderr, some fmtOut⟩

/-- A pre-release version string. -/
def preAlpha : String := "1.0.0-alpha"

/-- The corresponding release version string. -/
def relVer : String := "1.0.0"

/-- A purely non-numeric version component. -/
def alphaWord : String := "alpha"

/-- A version string with a leading `v`. -/
def vOneTwo : String := "v1.2.0"

/-- The same version without the `v`. -/
def oneTwo : String := "1.2.0"

/-- A two-component version string. -/
def oneZero : String := "1.0"

/-- The displayed text as claim C7 (amended) describes it: trimmed
side-output followed by ` => result` (omitted for an empty or `'null'`
result) when the side-output trims non-empty; the bare result when the
side-output is non-empty but trims empty; `=> result` otherwise. -/
def claimedDisplayed (result : String) (so : Option String) : String :=
  match so with
  | none => arrowHead ++ result
  | some s =>
      if strNonEmpty s then
        (if strNonEmpty (jsTrim s) then
          jsTrim s ++
            (if strNonEmpty result && !(strEq result nullLit) then
              sepArrow ++ result
             else emptyStr)
         else result)
      else arrowHead ++ result

/-! ## Helper lemmas -/

theorem length_mkStr (l : List Char) : (String.mk l).length = l.length := rfl

theorem toList_mkStr (l : List Char) : (String.mk l).toList = l := rfl

theorem mkStr_toList (s : String) : String.mk s.toList = s := rfl

theorem length_appendStr (a b : String) : (a ++ b).length = a.length + b.length := by
  cases a with
  | mk la =>
    cases b with
    | mk lb =>
      show (String.mk (la ++ lb)).length = _
      simp [length_mkStr, String.length]

theorem toList_appendStr (a b : String) : (a ++ b).toList = a.toList ++ b.toList := by
  cases a with
  | mk la => cases b with
    | mk lb => rfl

theorem collapseList_no_nl : ∀ l : List Char, '\n' ∉ collapseList l := by
  intro l
  induction l with
  | nil => simp [collapseList]
  | cons c t ih =>
    by_cases h : c = '\n'
    · subst h
      simp [collapseList, ih]
    · simp [collapseList, h, ih]
      exact fun hc => h hc.symm

theorem collapseList_id_of_no_nl : ∀ l : List Char, '\n' ∉ l → collapseList l = l := by
  intro l
  induction l with
  | nil => intro _; rfl
  | cons c t ih =>
    intro h
    have hc : ¬(c = '\n') := fun hh => h (hh ▸ List.mem_cons_self c t)
    have ht : '\n' ∉ t := fun hh => h (List.mem_cons_of_mem c hh)
    simp only [collapseList, if_neg hc, ih ht]

theorem head?_dropWhile_ws : ∀ (l : List Char) (c : Char),
    (l.dropWhile jsWsChar).head? = some c → jsWsChar c = false := by
  intro l
  induction l with
  | nil => intro c h; simp [List.dropWhile] at h
  | cons a t ih =>
    intro c h
    by_cases ha : jsWsChar a
    · rw [List.dropWhile_cons, if_pos ha] at h
      exact ih c h
    · rw [List.dropWhile_cons, if_neg ha] at h
      simp only [List.head?_cons, Option.some.injEq] at h
      subst h
      exact Bool.eq_false_iff.mpr ha

theorem trimList_getLast?_not_ws (l : List Char) (c : Char)
    (h : (trimList l).getLast? = some c) : jsWsChar c = false := by
  unfold trimList at h
  rw [List.getLast?_reverse] at h
  exact head?_dropWhile_ws _ c h

theorem findStartAux_le (lines : List String) (pos : Nat) :
    ∀ f, f ≤ pos + 1 → findStartAux lines pos f ≤ pos := by
  intro f
  induction f with
  | zero => intro _; simp [findStartAux]
  | succ k ih =>
    intro h
    simp only [findStartAux]
    split
    · exact ih (by omega)
    · split
      · omega
      · exact ih (by omega)

theorem stBefore_succ (lines : List String) (s i : Nat) (hs : s ≤ i)
    (hi : i < lines.length) :
    stBefore lines s (i + 1) = stepLine (stBefore lines s i) (lines.getD i emptyStr) := by
  unfold stBefore
  have h1 : i + 1 - s = (i - s) + 1 := by omega
  have h2 : (lines.drop s)[i - s]? = some (lines.getD i emptyStr) := by
    rw [List.getElem?_drop]
    have h3 : s + (i - s) = i := by omega
    rw [h3, List.getElem?_eq_getElem hi, List.getD_eq_getElem _ _ hi]
  rw [h1, List.take_succ, h2, List.foldl_append]
  rfl

theorem scanEndAux_step (lines : List String) (s i prev : Nat) (hs : s ≤ i)
    (hi : i < lines.length) :
    scanEndAux s (stBefore lines s i) i prev (lines.drop i) =
      if stopA lines s i then i
      else if stopB lines s i then i - 1
      else scanEndAux s (stBefore lines s (i + 1)) (i + 1) i (lines.drop (i + 1)) := by
  have hgd : lines[i] = lines.getD i emptyStr := (List.getD_eq_getElem _ _ hi).symm
  rw [List.drop_eq_getElem_cons hi]
  simp only [scanEndAux, hgd, ← stBefore_succ lines s i hs hi]
  rfl

theorem scanEndAux_lt (lines : List String) (s : Nat) :
    ∀ m i prev, lines.length - i = m → s ≤ i → i < lines.length →
    prev < lines.length →
    scanEndAux s (stBefore lines s i) i prev (lines.drop i) < lines.length := by
  intro m
  induction m with
  | zero => intro i prev hm hs hi hp; omega
  | succ k ih =>
    intro i prev hm hs hi hp
    rw [scanEndAux_step lines s i prev hs hi]
    rcases Bool.eq_false_or_eq_true (stopA lines s i) with hA | hA
    · rw [if_pos hA]; exact hi
    · have hA' : ¬(stopA lines s i = true) := by rw [hA]; exact Bool.false_ne_true
      rw [if_neg hA']
      rcases Bool.eq_false_or_eq_true (stopB lines s i) with hB | hB
      · rw [if_pos hB]; omega
      · have hB' : ¬(stopB lines s i = true) := by rw [hB]; exact Bool.false_ne_true
        rw [if_neg hB']
        by_cases hi1 : i + 1 < lines.length
        · exact ih (i + 1) i (by omega) (by omega) hi1 hi
        · have hnil : lines.drop (i + 1) = [] := List.drop_eq_nil_iff.mpr (by omega)
          rw [hnil]
          show i < lines.length
          exact hi

theorem scanEndAux_noStop (lines : List String) (s : Nat) :
    ∀ m i prev, lines.length - i = m → s ≤ i →
    (∀ j, j < lines.length → i ≤ j →
      stopA lines s j = false ∧ stopB lines s j = false) →
    scanEndAux s (stBefore lines s i) i prev (lines.drop i) =
      if i < lines.length then lines.length - 1 else prev := by
  intro m
  induction m with
  | zero =>
    intro i prev hm hs hno
    have hle : lines.length ≤ i := by omega
    have hni : ¬(i < lines.length) := by omega
    rw [List.drop_eq_nil_iff.mpr hle]
    show prev = if i < lines.length then lines.length - 1 else prev
    rw [if_neg hni]
  | succ k ih =>
    intro i prev hm hs hno
    have hi : i < lines.length := by omega
    have hA' : ¬(stopA lines s i = true) := by
      rw [(hno i hi le_rfl).1]; exact Bool.false_ne_true
    have hB' : ¬(stopB lines s i = true) := by
      rw [(hno i hi le_rfl).2]; exact Bool.false_ne_true
    rw [scanEndAux_step lines s i prev hs hi, if_neg hA', if_neg hB',
      ih (i + 1) i (by omega) (by omega) (fun j hj hij => hno j hj (by omega))]
    by_cases h1 : i + 1 < lines.length
    · rw [if_pos h1, if_pos hi]
    · rw [if_neg h1, if_pos hi]
      omega

theorem scanEndAux_firstStop (lines : List String) (s : Nat) :
    ∀ m i prev j, lines.length - i = m → s ≤ i → i ≤ j → j < lines.length →
    (∀ k, k < j → i ≤ k → stopA lines s k = false ∧ stopB lines s k = false) →
    (stopA lines s j = true ∨ stopB lines s j = true) →
    scanEndAux s (stBefore lines s i) i prev (lines.drop i) =
      if stopA lines s j then j else j - 1 := by
  intro m
  induction m with
  | zero => intro i prev j hm hs hij hj hpre hstop; omega
  | succ k ih =>
    intro i prev j hm hs hij hj hpre hstop
    have hi : i < lines.length := by omega
    rw [scanEndAux_step lines s i prev hs hi]
    rcases Nat.eq_or_lt_of_le hij with heq | hlt
    · subst heq
      rcases Bool.eq_false_or_eq_true (stopA lines s i) with hA | hA
      · rw [if_pos hA, if_pos hA]
      · have hB : stopB lines s i = true := by
          rcases hstop with h | h
          · rw [hA] at h; cases h
          · exact h
        have hA' : ¬(stopA lines s i = true) := by rw [hA]; exact Bool.false_ne_true
        rw [if_neg hA', if_pos hB, if_neg hA']
    · have h0 := hpre i hlt le_rfl
      have hA' : ¬(stopA lines s i = true) := by rw [h0.1]; exact Bool.false_ne_true
      have hB' : ¬(stopB lines s i = true) := by rw [h0.2]; exact Bool.false_ne_true
      rw [if_neg hA', if_neg hB']
      exact ih (i + 1) i j (by omega) (by omega) (by omega) hj
        (fun k hk1 hk2 => hpre k hk1 (by omega)) hstop

theorem evaluateHotCode_fallback (code : String) (env : EvalEnv)
    (h : serverPathFails env = true) :
    evaluateHotCode code env = (runCli env.cli, [cliEvalCall code]) := by
  obtain ⟨cp, run, rep, cli⟩ := env
  cases cp with
  | false => rfl
  | true =>
    cases run with
    | false => rfl
    | true =>
      cases rep with
      | ok r => exact Bool.noConfusion h
      | error m => rfl

/-! ## Claim theorems -/

/-- C1 counterexample: with no running client the CLI fallback exits 0 with
captured stdout `"2\n"`, yet the returned result is not that captured
standard output (it has been trimmed), refuting the claim's "the returned
EvalResult is {success: true} with the captured standard output as its
result". -/
theorem c1_dispatch_cex :
    serverPathFails envRawOut = true ∧
    envRawOut.cli = CliOutcome.ok twoNl emptyStr ∧
    (evaluateHotCode onePlusOne envRawOut).1.success = true ∧
    (evaluateHotCode onePlusOne envRawOut).1.result ≠ twoNl := by decide

/-- C1 (amended): for every evaluation request, if the language-server path
fails (client absent, not running, or the request throws), exactly one CLI
fallback invocation occurs, bounded by a 30000 ms timeout; on exit code 0
the EvalResult is success with the captured standard output, trimmed of
surrounding whitespace, as its result; on non-zero exit or spawn failure it
is failure with standard error (or the spawn error's message when stderr is
empty) as its error text; the evaluate operation is a total function. -/
theorem c1_dispatch_amended (code : String) (env : EvalEnv)
    (h : serverPathFails env = true) :
    (evaluateHotCode code env).2 = [cliEvalCall code] ∧
    (cliEvalCall code).timeoutMs = 30000 ∧
    (match env.cli with
     | CliOutcome.ok out _ =>
         (evaluateHotCode code env).1 = ⟨true, jsTrim out, none, none, none⟩
     | CliOutcome.fail m _ se =>
         (evaluateHotCode code env).1 =
           ⟨false, emptyStr, some (if strNonEmpty se then se else m), none, none⟩) := by
  have hcli := evaluateHotCode_fallback code env h
  refine ⟨by rw [hcli], rfl, ?_⟩
  cases hc : env.cli with
  | ok out se => rw [hcli, hc]; rfl
  | fail m so se => rw [hcli, hc]; rfl

/-- C1 witness: the amended theorem applied to a concrete down-server
environment whose CLI prints `"2\n"`. -/
theorem c1_dispatch_wit :
    (evaluateHotCode onePlusOne envRawOut).2 = [cliEvalCall onePlusOne] ∧
    (cliEvalCall onePlusOne).timeoutMs = 30000 ∧
    (match envRawOut.cli with
     | CliOutcome.ok out _ =>
         (evaluateHotCode onePlusOne envRawOut).1 = ⟨true, jsTrim out, none, none, none⟩
     | CliOutcome.fail m _ se =>
         (evaluateHotCode onePlusOne envRawOut).1 =
           ⟨false, emptyStr, some (if strNonEmpty se then se else m), none, none⟩) :=
  c1_dispatch_amended onePlusOne envRawOut (by decide)

/-- C9: on the CLI fallback path, a clean exit yields the trimmed standard
output as the result (so the result never ends in a whitespace character
such as a trailing newline), and a failure yields stderr when non-empty,
otherwise the spawn error's message, with an empty result field. -/
theorem c9_cli_result (code : String) (env : EvalEnv)
    (h : serverPathFails env = true) :
    (match env.cli with
     | CliOutcome.ok out _ =>
         (evaluateHotCode code env).1.result = jsTrim out ∧
         (evaluateHotCode code env).1.success = true ∧
         (∀ c, (evaluateHotCode code env).1.result.toList.getLast? = some c →
            jsWsChar c = false)
     | CliOutcome.fail m _ se =>
         (evaluateHotCode code env).1.error =
           some (if strNonEmpty se then se else m) ∧
         (evaluateHotCode code env).1.result = emptyStr) := by
  have hcli := evaluateHotCode_fallback code env h
  cases hc : env.cli with
  | ok out se =>
    refine ⟨by rw [hcli, hc]; rfl, by rw [hcli, hc]; rfl, ?_⟩
    intro c hlast
    rw [hcli, hc] at hlast
    exact trimList_getLast?_not_ws _ _ hlast
  | fail m so se => exact ⟨by rw [hcli, hc]; rfl, by rw [hcli, hc]; rfl⟩

/-- C9 witness: the theorem applied to a running-client environment whose
request throws and whose CLI spawn fails with empty stderr, so the error
text is the spawn error's message. -/
theorem c9_cli_result_wit :
    (match envFailCli.cli with
     | CliOutcome.ok out _ =>
         (evaluateHotCode onePlusOne envFailCli).1.result = jsTrim out ∧
         (evaluateHotCode onePlusOne envFailCli).1.success = true ∧
         (∀ c, (evaluateHotCode onePlusOne envFailCli).1.result.toList.getLast? = some c →
            jsWsChar c = false)
     | CliOutcome.fail m _ se =>
         (evaluateHotCode onePlusOne envFailCli).1.error =
           some (if strNonEmpty se then se else m) ∧
         (evaluateHotCode onePlusOne envFailCli).1.result = emptyStr) :=
  c9_cli_result onePlusOne envFailCli (by decide)

/-- C2 counterexample: on the document `a ({}` / `)` (start line 0), brace
nesting returns to zero after going positive already at line 0, so the
claim's rule (which ignores parenthesis nesting) ends the span at line 0,
but the source's scan continues to line 1 because the parenthesis count is
still positive — the claim's end-line rule disagrees with the code. -/
theorem c2_scan_cex :
    claimedEnd demoDoc 0 0 = 0 ∧ scanEnd demoDoc 0 0 = 1 ∧
    claimedEnd demoDoc 0 0 ≠ scanEnd demoDoc 0 0 := by decide

/-- C2 (amended): in the downward scan, the end line is the first line at
which brace-nesting has returned to zero after having gone positive at
least once WITH parenthesis-nesting at most zero (`stopA`), or the line
before the first subsequent line that begins a new top-level unit
(`stopB`), whichever comes first; and on the 3-line scenario input the
extractor returns the full 3-line span. -/
theorem c2_scan_amended :
    (∀ (lines : List String) (s pos j : Nat), s ≤ j → j < lines.length →
      (∀ k, k < j → s ≤ k →
        stopA lines s k = false ∧ stopB lines s k = false) →
      (stopA lines s j = true ∨ stopB lines s j = true) →
      scanEnd lines s pos = if stopA lines s j then j else j - 1) ∧
    getTopLevelForm scenarioDoc 1 = some ⟨scenarioText, 0, 0, 2, 1⟩ := by
  constructor
  · intro lines s pos j hsj hj hpre hstop
    have h0 : stBefore lines s s = scanInit := by simp [stBefore]
    unfold scanEnd
    rw [← h0]
    exact scanEndAux_firstStop lines s (lines.length - s) s pos j rfl le_rfl
      hsj hj hpre hstop
  · decide

/-- C2 witness: the amended rule applied to the paren-imbalance document,
where the first stop is the balance condition at line 1. -/
theorem c2_scan_wit :
    scanEnd demoDoc 0 0 = if stopA demoDoc 0 1 then 1 else 1 - 1 :=
  c2_scan_amended.1 demoDoc 0 0 1 (by decide) (by decide) (by decide) (by decide)

/-- C8: the form extractor is total — on any document, for any in-range
cursor line, the upward scan never goes above line 0 nor below the cursor,
the downward scan's end line stays within the document, any returned span
has in-bounds start and end lines, and when no stop condition ever holds
(e.g. an unbalanced brace count) the downward scan runs to the last line of
the document. -/
theorem c8_extractor_total (lines : List String) (pos : Nat)
    (h : pos < lines.length) :
    findStart lines pos ≤ pos ∧
    scanEnd lines (findStart lines pos) pos < lines.length ∧
    (∀ sp, getTopLevelForm lines pos = some sp →
        sp.startLine ≤ pos ∧ sp.endLine < lines.length) ∧
    ((∀ j, j < lines.length → findStart lines pos ≤ j →
        stopA lines (findStart lines pos) j = false ∧
        stopB lines (findStart lines pos) j = false) →
      scanEnd lines (findStart lines pos) pos = lines.length - 1) := by
  have h1 : findStart lines pos ≤ pos := findStartAux_le lines pos (pos + 1) le_rfl
  have h0 : stBefore lines (findStart lines pos) (findStart lines pos) = scanInit := by
    simp [stBefore]
  have h2 : scanEnd lines (findStart lines pos) pos < lines.length := by
    unfold scanEnd
    rw [← h0]
    exact scanEndAux_lt lines (findStart lines pos)
      (lines.length - findStart lines pos) (findStart lines pos) pos rfl
      le_rfl (by omega) h
  refine ⟨h1, h2, ?_, ?_⟩
  · intro sp hsp
    simp only [getTopLevelForm] at hsp
    split at hsp
    · cases hsp
    · cases hsp
      exact ⟨h1, h2⟩
  · intro hno
    unfold scanEnd
    rw [← h0, scanEndAux_noStop lines (findStart lines pos)
      (lines.length - findStart lines pos) (findStart lines pos) pos rfl
      le_rfl hno, if_pos (by omega)]

/-- C8 witness: the theorem applied to the one-line document with an
unbalanced open brace, where the scan runs to the end of the document. -/
theorem c8_extractor_wit :
    (findStart unbalDoc 0 ≤ 0 ∧
     scanEnd unbalDoc (findStart unbalDoc 0) 0 < unbalDoc.length ∧
     (∀ sp, getTopLevelForm unbalDoc 0 = some sp →
        sp.startLine ≤ 0 ∧ sp.endLine < unbalDoc.length) ∧
     ((∀ j, j < unbalDoc.length → findStart unbalDoc 0 ≤ j →
        stopA unbalDoc (findStart unbalDoc 0) j = false ∧
        stopB unbalDoc (findStart unbalDoc 0) j = false) →
      scanEnd unbalDoc (findStart unbalDoc 0) 0 = unbalDoc.length - 1)) ∧
    scanEnd unbalDoc (findStart unbalDoc 0) 0 = unbalDoc.length - 1 :=
  ⟨c8_extractor_total unbalDoc 0 (by decide), by decide⟩

/-- C3 counterexample: for an 81-character result with no captured stdout,
the composed display text is longer than 80, yet the annotation text is 84
characters (the truncated 81 plus the 3-character `=> ` marker), not 81 —
refuting "the text displayed in the inline annotation has length exactly
81". -/
theorem c3_truncation_cex :
    (collapseNewlines (composeDisplay longAStr none)).length > 80 ∧
    (displayedText longAStr none).length ≠ 81 ∧
    (displayedText longAStr none).length = 84 := by decide

/-- C3 (amended): whenever the composed display text (after collapsing
embedded line breaks to the visible marker) is longer than 80 characters,
the truncated text has length exactly 81 (80 plus the ellipsis marker);
the text displayed in the inline annotation is exactly that 81-character
string when stdout is a non-empty string, and is 84 characters (an
additional 3-character `=> ` marker) otherwise; the displayed text never
contains a line-break character. -/
theorem c3_truncation_amended (result : String) (so : Option String)
    (h : (collapseNewlines (composeDisplay result so)).length > 80) :
    (truncateDisplay (collapseNewlines (composeDisplay result so))).length = 81 ∧
    (displayedText result so).length = (if jsTruthy so then 81 else 84) ∧
    '\n' ∉ (displayedText result so).toList := by
  have htr : truncateDisplay (collapseNewlines (composeDisplay result so)) =
      String.mk ((collapseNewlines (composeDisplay result so)).toList.take 80 ++
        [ellipsisChar]) := by
    unfold truncateDisplay
    rw [if_pos h]
  have hlen : (truncateDisplay (collapseNewlines (composeDisplay result so))).length
      = 81 := by
    rw [htr, length_mkStr, List.length_append, List.length_take,
      List.length_singleton]
    have hlc : (collapseNewlines (composeDisplay result so)).length =
        (collapseNewlines (composeDisplay result so)).toList.length := rfl
    omega
  have hnl : '\n' ∉
      (truncateDisplay (collapseNewlines (composeDisplay result so))).toList := by
    rw [htr, toList_mkStr]
    intro hmem
    rcases List.mem_append.mp hmem with h1 | h1
    · exact collapseList_no_nl (composeDisplay result so).toList
        (List.take_subset _ _ h1)
    · simp only [List.mem_singleton] at h1
      exact absurd h1 (by decide)
  refine ⟨hlen, ?_, ?_⟩
  · show (if jsTruthy so then
        truncateDisplay (collapseNewlines (composeDisplay result so))
      else arrowHead ++
        truncateDisplay (collapseNewlines (composeDisplay result so))).length = _
    rcases Bool.eq_false_or_eq_true (jsTruthy so) with ht | ht
    · rw [if_pos ht, if_pos ht]
      exact hlen
    · have ht' : ¬(jsTruthy so = true) := by rw [ht]; exact Bool.false_ne_true
      rw [if_neg ht', if_neg ht', length_appendStr, hlen]
      rfl
  · show '\n' ∉ (if jsTruthy so then
        truncateDisplay (collapseNewlines (composeDisplay result so))
      else arrowHead ++
        truncateDisplay (collapseNewlines (composeDisplay result so))).toList
    rcases Bool.eq_false_or_eq_true (jsTruthy so) with ht | ht
    · rw [if_pos ht]
      exact hnl
    · have ht' : ¬(jsTruthy so = true) := by rw [ht]; exact Bool.false_ne_true
      rw [if_neg ht', toList_appendStr]
      intro hmem
      rcases List.mem_append.mp hmem with h1 | h1
      · revert h1
        decide
      · exact hnl h1

/-- C3 witness: the amended theorem applied to the 81-character result with
no captured stdout. -/
theorem c3_truncation_wit :
    (collapseNewlines (composeDisplay longAStr none)).length > 80 ∧
    ((truncateDisplay (collapseNewlines (composeDisplay longAStr none))).length = 81 ∧
     (displayedText longAStr none).length =
       (if jsTruthy (none : Option String) then 81 else 84) ∧
     '\n' ∉ (displayedText longAStr none).toList) :=
  ⟨by decide, c3_truncation_amended longAStr none (by decide)⟩

/-- C6: clearing the inline annotation is idempotent.  From the
just-displayed state (one decoration set, edit listener armed, timeout
pending), firing the edit-triggered clear and the timeout-triggered clear
in either order yields the same fully-cleared state; after the first
trigger the decorations are already empty, so the second trigger leaves
them unchanged (a no-op), and both operations are total functions, so no
error is possible. -/
theorem c6_clear_idempotent (d : Nat) (ds : List Nat) :
    timerClear (editClear ⟨d :: ds, true, true⟩) = ⟨[], false, false⟩ ∧
    editClear (timerClear ⟨d :: ds, true, true⟩) = ⟨[], false, false⟩ ∧
    (editClear ⟨d :: ds, true, true⟩).decos = [] ∧
    (timerClear ⟨d :: ds, true, true⟩).decos = [] ∧
    (timerClear (editClear ⟨d :: ds, true, true⟩)).decos =
      (editClear ⟨d :: ds, true, true⟩).decos ∧
    (editClear (timerClear ⟨d :: ds, true, true⟩)).decos =
      (timerClear ⟨d :: ds, true, true⟩).decos := by
  simp [editClear, timerClear]

/-- C7 counterexample: with result `"5"` and a whitespace-only (but
non-empty, hence present) captured stdout `" "`, the displayed text is the
bare `"5"` — neither `side-output => result` nor `=> result` — because the
composition step tests the trimmed stdout while the prefix step tests the
raw stdout. -/
theorem c7_compose_cex :
    displayedText fiveStr (some blankStr) = fiveStr ∧
    displayedText fiveStr (some blankStr) ≠ arrowHead ++ fiveStr ∧
    displayedText fiveStr (some blankStr) ≠
      jsTrim blankStr ++ sepArrow ++ fiveStr ∧
    displayedText fiveStr (some blankStr) ≠ blankStr ++ sepArrow ++ fiveStr := by
  decide

/-- C7 (amended): below the truncation threshold and with no embedded line
breaks, the displayed text is: the trimmed side-output followed by
` => result` (omitted when the result is empty or the literal `'null'`)
when the side-output trims to a non-empty string; the bare result when the
side-output is non-empty but trims to the empty string; and `=> result`
when the side-output is absent or the empty string. -/
theorem c7_compose_amended (result : String) (so : Option String)
    (h1 : '\n' ∉ (composeDisplay result so).toList)
    (h2 : (composeDisplay result so).length ≤ 80) :
    displayedText result so = claimedDisplayed result so := by
  have hid : collapseNewlines (composeDisplay result so) = composeDisplay result so := by
    unfold collapseNewlines
    rw [collapseList_id_of_no_nl _ h1, mkStr_toList]
  have htr : truncateDisplay (composeDisplay result so) = composeDisplay result so := by
    unfold truncateDisplay
    have hll : (composeDisplay result so).length =
        (composeDisplay result so).toList.length := rfl
    rw [if_neg (by omega)]
  have hd : displayedText result so =
      (if jsTruthy so then composeDisplay result so
       else arrowHead ++ composeDisplay result so) := by
    show (if jsTruthy so then
        truncateDisplay (collapseNewlines (composeDisplay result so))
      else arrowHead ++
        truncateDisplay (collapseNewlines (composeDisplay result so))) = _
    rw [hid, htr]
  rw [hd]
  cases so with
  | none => rfl
  | some s =>
    rcases Bool.eq_false_or_eq_true (strNonEmpty s) with hs | hs
    · have hj : jsTruthy (some s) = true := hs
      rw [if_pos hj]
      show composeDisplay result (some s) = claimedDisplayed result (some s)
      simp [composeDisplay, claimedDisplayed, hs]
    · have hj : ¬(jsTruthy (some s) = true) := by
        show ¬(strNonEmpty s = true)
        rw [hs]
        exact Bool.false_ne_true
      rw [if_neg hj]
      show arrowHead ++ composeDisplay result (some s) = claimedDisplayed result (some s)
      simp [composeDisplay, claimedDisplayed, hs]

/-- C7 witness: the amended theorem applied to result `"7"` with captured
stdout `"hi"`, displaying `hi => 7`. -/
theorem c7_compose_wit :
    displayedText sevenStr (some hiStr) = claimedDisplayed sevenStr (some hiStr) :=
  c7_compose_amended sevenStr (some hiStr) (by decide) (by decide)

/-- C4 (code bug): the format bridge does NOT remove its temporary file on
every exit path.  On a formatter failure whose stderr lacks the CHAR-AUDIT
marker, the callback logs and resolves without ever calling `unlinkSync`,
so the temp file survives (second conjunct); the clean-exit, recoverable-
warning, unchanged-content, and read-back-exception paths do remove it
(remaining conjuncts). -/
theorem c4_tmpfile_leak :
    strContains envLeak.stderr charAuditMark = false ∧
    (formatHotDocument origDoc envLeak).2 = some origDoc ∧
    (formatHotDocument origDoc envClean).2 = none ∧
    (formatHotDocument origDoc envAudit).2 = none ∧
    (formatHotDocument origDoc ⟨some leakMsg, auditStderr, some origDoc⟩).2 = none ∧
    (formatHotDocument origDoc ⟨none, emptyStr, none⟩).2 = none := by decide

/-- C5: for every document and formatter outcome, the resolved edit list is
exactly the claim's read-back-and-diff rule (zero edits when the formatter
output equals the original, one full-range edit when it differs, the same
on a non-zero exit whose stderr contains the CHAR-AUDIT marker, zero edits
on any other failure), it never holds more than one edit, and every edit it
holds replaces the full original range with a changed text; the model is a
total function and the promise executor never invokes `reject`, so the
operation never rejects or throws. -/
theorem c5_format_edits (content : String) (env : FmtEnv) :
    (formatHotDocument content env).1 = claimedFormatEdits content env ∧
    (formatHotDocument content env).1.length ≤ 1 ∧
    (∀ ed, ed ∈ (formatHotDocument content env).1 →
      ed.rangeStart = 0 ∧ ed.rangeEnd = content.length ∧ ed.newText ≠ content) := by
  obtain ⟨err, stderr, tmpAfter⟩ := env
  refine ⟨?_, ?_, ?_⟩ <;>
    (cases err with
     | none =>
       cases tmpAfter with
       | none => simp [formatHotDocument, claimedFormatEdits, readBackEdits]
       | some t =>
         by_cases hne : t = content <;>
           simp [formatHotDocument, claimedFormatEdits, readBackEdits, fullEdit, hne]
     | some e =>
       rcases Bool.eq_false_or_eq_true (strContains stderr charAuditMark) with hm | hm <;>
         (cases tmpAfter with
          | none => simp [formatHotDocument, claimedFormatEdits, readBackEdits, hm]
          | some t =>
            by_cases hne : t = content <;>
              simp [formatHotDocument, claimedFormatEdits, readBackEdits, fullEdit,
                hm, hne]))

/-- C10: `compareSemver` parses dot- or hyphen-separated components as
integers with non-numeric and missing components read as `0` and a leading
`v` ignored, so a pre-release compares equal to its release
(`compareSemver("1.0.0-alpha", "1.0.0") = 0`) and an installed pre-release
of the latest version triggers no update notification. -/
theorem c10_semver :
    compareSemver preAlpha relVer = 0 ∧
    jsParseIntOr0 alphaWord.toList = 0 ∧
    compareSemver vOneTwo oneTwo = 0 ∧
    compareSemver oneZero relVer = 0 ∧
    shouldNotify (some preAlpha) relVer = false := by decide

end HotVsx
